import Mathlib

/-!
Verification of the pyside-config repository: a declarative settings layer
binding attrs-style configuration classes to a Qt-like persistent settings
store (QSettings).  The development shallowly embeds the data model and the
operations of the source files (base.py, config.py, _pyside_config.py,
registry.py, config_manager.py, _config_manager.py, widgets.py,
properties.py) and proves properties of registration, persistence
round-trips, the singleton registry, the enum combo box and the widget
property validators.
-/

set_option autoImplicit false

namespace PysideConfig

/-! ## Values stored in the settings store

QSettings stores variant values.  The configuration fields of this
repository hold ints, strings, bools, and QColor objects (a QColor is
represented here by its name() string, e.g. "#ff0000").  A stored string
is distinct from a QColor, mirroring the fact that in Python a str is
never equal to a QColor object. -/

inductive Value where
  | vint : Int → Value
  | vstr : String → Value
  | vbool : Bool → Value
  | vcolor : String → Value
  deriving DecidableEq, Repr

/-! ## Association lists

Python dictionaries (QSettings keys, attrs instance attribute maps, the
config registries) are modelled as association lists with first-match
lookup and first-match replacement; insertion of a new key appends. -/

def alget? {α : Type} : List (String × α) → String → Option α
  | [], _ => none
  | (k2, v) :: rest, k => if k2 = k then some v else alget? rest k

def alset {α : Type} : List (String × α) → String → α → List (String × α)
  | [], k, v => [(k, v)]
  | (k2, v2) :: rest, k, v =>
      if k2 = k then (k, v) :: rest else (k2, v2) :: alset rest k v

theorem alget?_alset_self {α : Type} (l : List (String × α)) (k : String) (v : α) :
    alget? (alset l k v) k = some v := by
  induction l with
  | nil => simp [alset, alget?]
  | cons hd tl ih =>
      by_cases h : hd.1 = k
      · simp [alset, alget?, h]
      · simp [alset, alget?, h, ih]

theorem alget?_alset_ne {α : Type} (l : List (String × α)) (k k2 : String) (v : α)
    (h : k2 ≠ k) : alget? (alset l k2 v) k = alget? l k := by
  induction l with
  | nil => simp [alset, alget?, h]
  | cons hd tl ih =>
      by_cases h2 : hd.1 = k2
      · simp [alset, alget?, h2, h]
      · simp [alset, alget?, h2, ih]

theorem alset_of_alget? {α : Type} (l : List (String × α)) (k : String) (x : α)
    (h : alget? l k = some x) : alset l k x = l := by
  induction l with
  | nil => simp [alget?] at h
  | cons hd tl ih =>
      by_cases h2 : hd.1 = k
      · simp [alget?, h2] at h
        subst h2
        subst h
        simp [alset]
      · simp [alget?, h2] at h
        simp [alset, h2, ih h]

theorem alget?_of_mem_nodup {α : Type} (l : List (String × α)) (k : String) (x : α)
    (hmem : (k, x) ∈ l) (hnd : (l.map Prod.fst).Nodup) : alget? l k = some x := by
  induction l with
  | nil => simp at hmem
  | cons hd tl ih =>
      simp only [List.map_cons, List.nodup_cons] at hnd
      rcases List.mem_cons.mp hmem with h | h
      · simp [alget?, ← h]
      · have hk : k ∈ tl.map Prod.fst := List.mem_map.mpr ⟨(k, x), h, rfl⟩
        have hne : hd.1 ≠ k := fun he => hnd.1 (he ▸ hk)
        simp [alget?, hne, ih h hnd.2]

theorem alget?_isSome_of_mem_keys {α : Type} (l : List (String × α)) (k : String)
    (h : k ∈ l.map Prod.fst) : (alget? l k).isSome = true := by
  induction l with
  | nil => simp at h
  | cons hd tl ih =>
      by_cases h2 : hd.1 = k
      · simp [alget?, h2]
      · simp only [List.map_cons, List.mem_cons] at h
        rcases h with h | h
        · exact absurd h.symm h2
        · simp [alget?, h2, ih h]

/-! ## Fields and configuration classes

An attrs field has a name and a declared default, which is either a plain
value or a Factory wrapping a zero-argument callable (attr._make.Factory).
A configuration class records its Python class name, the optional
group_name passed to the @config decorator (None when the plain decorator
form is used), and its ordered attrs fields. -/

inductive FieldDefault where
  | value : Value → FieldDefault
  | factory : (Unit → Value) → FieldDefault

structure Field where
  name : String
  default : FieldDefault

structure ConfigClass where
  className : String
  groupName : Option String := none
  fields : List Field

/-- Translation of _pyside_config._get_field_default: a Factory default is
invoked to produce the value, a plain default is returned as is. -/
def getFieldDefault (f : Field) : Value :=
  match f.default with
  | .factory g => g ()
  | .value v => v

/-- Translation of base.get_setting_path (also config._get_setting_path and
utils.get_setting_path): the settings key is "ClassName/attribute_name". -/
def getSettingPath (className attrName : String) : String :=
  className ++ "/" ++ attrName

/-- Translation of the group assignment in _pyside_config.config:
cls.__group_prefix__ = group_name or cls.__name__.  Python or-truthiness
makes an empty group_name fall back to the class name. -/
def configGroupOf (c : ConfigClass) : String :=
  match c.groupName with
  | some s => if s = "" then c.className else s
  | none => c.className

/-- Translation of _pyside_config._get_setting_path: the settings key is
"__group_prefix__/attribute_name". -/
def settingPathOf (c : ConfigClass) (attrName : String) : String :=
  configGroupOf c ++ "/" ++ attrName

theorem getSettingPath_ne_empty (c a : String) : getSettingPath c a ≠ "" := by
  intro h
  have h2 := congrArg String.length h
  simp [getSettingPath, String.length_append] at h2
  exact absurd h2.1.2 (by decide)

theorem settingPathOf_ne_empty (c : ConfigClass) (a : String) :
    settingPathOf c a ≠ "" := by
  intro h
  have h2 := congrArg String.length h
  simp [settingPathOf, String.length_append] at h2
  exact absurd h2.1.2 (by decide)

theorem getSettingPath_inj (c a b : String) (h : getSettingPath c a = getSettingPath c b) :
    a = b := by
  have h2 := congrArg String.data h
  simp [getSettingPath, String.data_append] at h2
  exact String.ext h2

theorem settingPathOf_inj (c : ConfigClass) (a b : String)
    (h : settingPathOf c a = settingPathOf c b) : a = b := by
  have h2 := congrArg String.data h
  simp [settingPathOf, String.data_append] at h2
  exact String.ext h2

/-! ## The persistent settings store

QtCore.QSettings is a process-wide key-value store.  Every QSettings()
object created by the source refers to the same underlying store, so the
store is modelled as one state threaded through the operations.  setValue
marks the state unsynced; sync flushes it. -/

structure QSettingsState where
  store : List (String × Value)
  synced : Bool
  deriving Repr

def QSettingsState.setValue (st : QSettingsState) (k : String) (v : Value) : QSettingsState :=
  { store := alset st.store k v, synced := false }

def QSettingsState.sync (st : QSettingsState) : QSettingsState :=
  { st with synced := true }

def QSettingsState.value? (st : QSettingsState) (k : String) : Option Value :=
  alget? st.store k

/-! ## Config instances

An attrs instance of a config class is its map from attribute name to
current value.  Attribute access on a constructed instance always
succeeds; the getD fallback below is never reached for the well-formed
instances the theorems quantify over. -/

abbrev ConfigVals := List (String × Value)

def getattr (vals : ConfigVals) (name : String) : Value :=
  (alget? vals name).getD (Value.vstr "")

/-- Translation of base.ConfigBase.from_qsettings: each field is read from
the store with the raw field.default as fallback; a Factory fallback is
then invoked (isinstance(value, Factory) check). -/
def fromQsettingsBase (cls : ConfigClass) (st : QSettingsState) : ConfigVals :=
  cls.fields.map fun f =>
    let path := getSettingPath cls.className f.name
    let value : FieldDefault :=
      match st.value? path with
      | some v => .value v
      | none => f.default
    let value : Value :=
      match value with
      | .factory g => g ()
      | .value v => v
    (f.name, value)

/-- Translation of _pyside_config._from_qsettings: the key is the group
path, the default is resolved by _get_field_default before the lookup.
The optional qtype coercion performed by QSettings.value is the identity
in this model, where the store already holds typed values. -/
def fromQsettingsGrp (cls : ConfigClass) (st : QSettingsState) : ConfigVals :=
  cls.fields.map fun f =>
    let path := settingPathOf cls f.name
    let d := getFieldDefault f
    (f.name, (st.value? path).getD d)

/-- Translation of config._from_qsettings: identical to the
_pyside_config variant except that config._get_setting_path uses the
class name as the group. -/
def fromQsettingsCfg (cls : ConfigClass) (st : QSettingsState) : ConfigVals :=
  cls.fields.map fun f =>
    let path := getSettingPath cls.className f.name
    let d := getFieldDefault f
    (f.name, (st.value? path).getD d)

/-- Common shape of to_qsettings in all source variants: setValue for each
field at its settings path, then one sync. -/
def toQsettingsAux (pathOf : String → String) (fields : List Field)
    (vals : ConfigVals) (st : QSettingsState) : QSettingsState :=
  (fields.foldl (fun acc f => acc.setValue (pathOf f.name) (getattr vals f.name)) st).sync

/-- Translation of base.ConfigBase.to_qsettings (class-name paths). -/
def toQsettingsBase (cls : ConfigClass) (vals : ConfigVals) (st : QSettingsState) : QSettingsState :=
  toQsettingsAux (getSettingPath cls.className) cls.fields vals st

/-- Translation of _pyside_config._to_qsettings (group paths). -/
def toQsettingsGrp (cls : ConfigClass) (vals : ConfigVals) (st : QSettingsState) : QSettingsState :=
  toQsettingsAux (settingPathOf cls) cls.fields vals st

/-- Translation of config._to_qsettings (class-name paths). -/
def toQsettingsCfg (cls : ConfigClass) (vals : ConfigVals) (st : QSettingsState) : QSettingsState :=
  toQsettingsAux (getSettingPath cls.className) cls.fields vals st

/-! ## Write-through on attribute mutation

The @config decorators install update_qsettings as the attrs on_setattr
hook, so a plain attribute assignment inst.field = value calls the hook
and then stores the returned value on the instance. -/

/-- Translation of base.update_qsettings (used via the on_setattr hook
installed by the config decorator in pyside_config/__init__.py, built on base.update_qsettings): a QColor
value is written as its name() string, every other value is written as
is; the store is synced and the incoming value is returned. -/
def update_qsettings_base (cls : ConfigClass) (f : Field) (value : Value)
    (st : QSettingsState) : Value × QSettingsState :=
  let path := getSettingPath cls.className f.name
  if path = "" then (value, st)
  else
    match value with
    | .vcolor nm => (value, ((st.setValue path (.vstr nm)).sync))
    | _ => (value, (st.setValue path value).sync)

/-- Translation of _pyside_config._update_qsettings: writes the value at
the group path, syncs, returns the value (no QColor special case). -/
def update_qsettings_grp (cls : ConfigClass) (f : Field) (value : Value)
    (st : QSettingsState) : Value × QSettingsState :=
  let path := settingPathOf cls f.name
  if path = "" then (value, st)
  else (value, (st.setValue path value).sync)

/-- Translation of config.update_qsettings: writes the value at the
class-name path, syncs, returns the value. -/
def update_qsettings_cfg (cls : ConfigClass) (attrName : String) (value : Value)
    (st : QSettingsState) : Value × QSettingsState :=
  let path := getSettingPath cls.className attrName
  if path = "" then (value, st)
  else (value, (st.setValue path value).sync)

/-- Attribute assignment through attrs with on_setattr =
base.update_qsettings: run the hook, then set the attribute to the value
the hook returned. -/
def setattrBase (cls : ConfigClass) (vals : ConfigVals) (f : Field) (v : Value)
    (st : QSettingsState) : ConfigVals × QSettingsState :=
  let r := update_qsettings_base cls f v st
  (alset vals f.name r.1, r.2)

/-- Attribute assignment through attrs with on_setattr =
_pyside_config._update_qsettings. -/
def setattrGrp (cls : ConfigClass) (vals : ConfigVals) (f : Field) (v : Value)
    (st : QSettingsState) : ConfigVals × QSettingsState :=
  let r := update_qsettings_grp cls f v st
  (alset vals f.name r.1, r.2)

/-- Attribute assignment through attrs with on_setattr =
config.update_qsettings. -/
def setattrCfg (cls : ConfigClass) (vals : ConfigVals) (attrName : String) (v : Value)
    (st : QSettingsState) : ConfigVals × QSettingsState :=
  let r := update_qsettings_cfg cls attrName v st
  (alset vals attrName r.1, r.2)

/-- Serialized form that base.update_qsettings actually writes to the
store: a QColor is replaced by its name() string, everything else is
written unchanged. -/
def storedForm : Value → Value
  | .vcolor nm => .vstr nm
  | v => v

/-! ## Helper lemmas about the field map and the fold of setValue calls -/

theorem alget?_map_fields {β : Type} (fields : List Field) (valFn : Field → β)
    (f : Field) (hmem : f ∈ fields) (hnd : (fields.map Field.name).Nodup) :
    alget? (fields.map fun g => (g.name, valFn g)) f.name = some (valFn f) := by
  induction fields with
  | nil => simp at hmem
  | cons hd tl ih =>
      simp only [List.map_cons, List.nodup_cons] at hnd
      rcases List.mem_cons.mp hmem with h | h
      · simp [alget?, ← h]
      · have hk : f.name ∈ tl.map Field.name := List.mem_map.mpr ⟨f, h, rfl⟩
        have hne : hd.name ≠ f.name := fun he => hnd.1 (he ▸ hk)
        simp [alget?, hne, ih h hnd.2]

theorem toQsettingsAux_value?_untouched (pathOf : String → String) (fields : List Field)
    (vals : ConfigVals) (st : QSettingsState) (p : String)
    (h : ∀ g ∈ fields, pathOf g.name ≠ p) :
    (fields.foldl (fun acc f => acc.setValue (pathOf f.name) (getattr vals f.name)) st).value? p
      = st.value? p := by
  induction fields generalizing st with
  | nil => rfl
  | cons hd tl ih =>
      have h2 := ih (st.setValue (pathOf hd.name) (getattr vals hd.name))
        (fun g hg => h g (List.mem_cons_of_mem hd hg))
      simp only [List.foldl_cons]
      rw [h2]
      exact alget?_alset_ne st.store p (pathOf hd.name) (getattr vals hd.name)
        (h hd (List.mem_cons_self hd tl))

theorem toQsettingsAux_value? (pathOf : String → String) (fields : List Field)
    (vals : ConfigVals) (st : QSettingsState) (f : Field) (hmem : f ∈ fields)
    (hnd : (fields.map fun g => pathOf g.name).Nodup) :
    (toQsettingsAux pathOf fields vals st).value? (pathOf f.name)
      = some (getattr vals f.name) := by
  induction fields generalizing st with
  | nil => simp at hmem
  | cons hd tl ih =>
      simp only [List.map_cons, List.nodup_cons] at hnd
      rcases List.mem_cons.mp hmem with h | h
      · subst h
        show ((tl.foldl _ (st.setValue (pathOf f.name) (getattr vals f.name))).sync).value? _ = _
        have huntouched := toQsettingsAux_value?_untouched pathOf tl vals
          (st.setValue (pathOf f.name) (getattr vals f.name)) (pathOf f.name)
          (fun g hg he => hnd.1 (he ▸ List.mem_map.mpr ⟨g, hg, rfl⟩))
        have hsync : ∀ st2 : QSettingsState, st2.sync.value? (pathOf f.name) = st2.value? (pathOf f.name) := fun _ => rfl
        rw [hsync, huntouched]
        exact alget?_alset_self st.store (pathOf f.name) (getattr vals f.name)
      · exact ih (st.setValue (pathOf hd.name) (getattr vals hd.name)) h hnd.2

theorem toQsettingsAux_synced (pathOf : String → String) (fields : List Field)
    (vals : ConfigVals) (st : QSettingsState) :
    (toQsettingsAux pathOf fields vals st).synced = true := rfl

/-! ## Registries

A registered config instance carries its class (for settings paths and
field iteration) and its current attribute values.  The registries
(bidict in _pyside_config/config, plain dict in registry.ConfigRegistry)
are modelled as association lists from registered name to instance. -/

structure RegInst where
  cls : ConfigClass
  vals : ConfigVals

abbrev Registry := List (String × RegInst)

/-- Translation of the name resolution used by config.register and
registry.ConfigRegistry.register: name or config_class.__name__, with
Python or-truthiness sending the empty string to the class name. -/
def resolveRegName (name? : Option String) (cls : ConfigClass) : String :=
  match name? with
  | some s => if s = "" then cls.className else s
  | none => cls.className

/-- Translation of _pyside_config._register: build the instance from the
store; insert when overwrite or the group name is free, otherwise raise
ValueError; on success persist the instance with to_qsettings. -/
def registerGrp (reg : Registry) (st : QSettingsState) (cls : ConfigClass)
    (overwrite : Bool) : Except String (Registry × QSettingsState) :=
  let name := configGroupOf cls
  let inst := fromQsettingsGrp cls st
  if overwrite || (alget? reg name).isNone then
    let reg2 := alset reg name ⟨cls, inst⟩
    .ok (reg2, toQsettingsGrp cls inst st)
  else
    .error "A config class with this name already exists. To replace it, set overwrite=True."

/-- Translation of config.register: build the instance from the store;
insert when (name in registry and overwrite) or name not in registry,
otherwise log an error and return.  The returned Bool reports whether the
error was logged.  No write-back to the store happens on either path. -/
def registerCfg (reg : Registry) (st : QSettingsState) (cls : ConfigClass)
    (name? : Option String) (overwrite : Bool) : Registry × QSettingsState × Bool :=
  let name := resolveRegName name? cls
  let inst := fromQsettingsCfg cls st
  if ((alget? reg name).isSome && overwrite) || (alget? reg name).isNone then
    (alset reg name ⟨cls, inst⟩, st, false)
  else
    (reg, st, true)

/-- Translation of registry.ConfigRegistry.register (identical to
config_manager.ConfigManager.register): build the instance from the
store, persist it with to_qsettings, then store it under the resolved
name with no duplicate check of any kind. -/
def registerRegistry (reg : Registry) (st : QSettingsState) (cls : ConfigClass)
    (name? : Option String) : Registry × QSettingsState :=
  let inst := fromQsettingsBase cls st
  let st2 := toQsettingsBase cls inst st
  (alset reg (resolveRegName name? cls) ⟨cls, inst⟩, st2)

/-! ## The singleton decorator and ConfigManager.__new__

registry.singleton / config_manager.singleton cache the constructed
object in a closure dictionary keyed by the class; __init__.
ConfigManager.__new__ caches it in the _instance class attribute.  Both
reduce to the same state machine on an optional cached instance;
constructed objects are identified by tokens (Nat). -/

/-- Translation of the wrapper produced by the singleton decorator: if no
instance is cached, cache a fresh one; always return the cached one. -/
def singletonCall (instances : Option Nat) (fresh : Nat) : Nat × Option Nat :=
  match instances with
  | none => (fresh, some fresh)
  | some inst => (inst, some inst)

/-- Translation of ConfigManager.__new__ in pyside_config/__init__.py:
if cls._instance is None, store a newly created object there; return
cls._instance. -/
def configManagerNew (instanceCache : Option Nat) (fresh : Nat) : Nat × Option Nat :=
  match instanceCache with
  | none => (fresh, some fresh)
  | some inst => (inst, some inst)

/-- Repeated constructor calls: thread the cache through a sequence of
calls, collecting the returned objects. -/
def callRepeatedly (call : Option Nat → Nat → Nat × Option Nat) :
    Option Nat → List Nat → List Nat
  | _, [] => []
  | cache, fresh :: rest =>
      let r := call cache fresh
      r.1 :: callRepeatedly call r.2 rest

/-! ## ConfigManagerBase and its mutex

_config_manager.ConfigManagerBase is stateful Qt code; its methods are
embedded as traces of the primitive effects they perform on the mutex and
the _configs registry, in program order. -/

inductive MgrEvent where
  | createMutex
  | lockMutex
  | unlockMutex
  | registryMutation (description : String)
  deriving DecidableEq, Repr

/-- Trace of ConfigManagerBase.register_config: a single _configs.put
call, nothing else. -/
def registerConfigTrace (groupName : String) : List MgrEvent :=
  [.registryMutation groupName]

/-- Trace of ConfigManagerBase.register_configs: a single _configs.putall
call, nothing else. -/
def registerConfigsTrace : List MgrEvent :=
  [.registryMutation "putall"]

/-- Trace of ConfigManagerBase.unregister_config: a single del
_configs[name], nothing else. -/
def unregisterConfigTrace (name : String) : List MgrEvent :=
  [.registryMutation name]

/-- Trace of ConfigManagerBase.__init__: the mutex is created, then
register_configs runs when a configs iterable was passed. -/
def managerInitTrace (withConfigs : Bool) : List MgrEvent :=
  [.createMutex] ++ (if withConfigs then registerConfigsTrace else [])

/-- Checks that every registry mutation in the trace happens while the
lock depth is positive, i.e. between a lock and its unlock. -/
def mutationsGuarded : List MgrEvent → Nat → Bool
  | [], _ => true
  | .lockMutex :: rest, d => mutationsGuarded rest (d + 1)
  | .unlockMutex :: rest, d => mutationsGuarded rest (d - 1)
  | .createMutex :: rest, d => mutationsGuarded rest d
  | .registryMutation _ :: rest, d => decide (0 < d) && mutationsGuarded rest d

/-! ## EnumComboBox (widgets.py)

The combo box state is the member list of the enum class stored in
self._enum_class at construction, the UserRole data of the model items,
and the current index (-1 when nothing is selected, as in Qt). -/

structure EnumComboBox (D : Type) where
  enumClassMembers : List D
  items : List D
  currentIndex : Int

/-- Translation of QComboBox.findData: index of the first item whose
UserRole data equals the value, -1 when absent. -/
def findDataList {D : Type} [DecidableEq D] : List D → D → Int
  | [], _ => -1
  | d :: rest, v =>
      if d = v then 0
      else
        let r := findDataList rest v
        if 0 ≤ r then r + 1 else -1

def EnumComboBox.findData {D : Type} [DecidableEq D] (cb : EnumComboBox D) (v : D) : Int :=
  findDataList cb.items v

/-- Translation of QComboBox.currentData(role=UserRole): the data of the
item at the current index, None when the index is invalid. -/
def EnumComboBox.currentData {D : Type} (cb : EnumComboBox D) : Option D :=
  if 0 ≤ cb.currentIndex then cb.items[cb.currentIndex.toNat]? else none

/-- Translation of EnumComboBox.set_enum_class: the model is cleared and
repopulated with one item per member of the passed class, in member
order.  Note that self._enum_class is NOT reassigned.  Qt selects the
first row of the freshly populated model (index -1 when it is empty). -/
def EnumComboBox.set_enum_class {D : Type} (cb : EnumComboBox D)
    (enumMembers : List D) : EnumComboBox D :=
  { cb with
      items := enumMembers
      currentIndex := if enumMembers.isEmpty then -1 else 0 }

/-- Translation of EnumComboBox.current_enum: the current data, or None
when it is not a member of self._enum_class (in particular when there is
no current data). -/
def EnumComboBox.current_enum {D : Type} [DecidableEq D] (cb : EnumComboBox D) : Option D :=
  match cb.currentData with
  | none => none
  | some data => if data ∈ cb.enumClassMembers then some data else none

/-- Translation of EnumComboBox.set_current_enum: look the value up with
findData and select that index when it was found. -/
def EnumComboBox.set_current_enum {D : Type} [DecidableEq D] (cb : EnumComboBox D)
    (value : D) : EnumComboBox D :=
  let index := cb.findData value
  if 0 ≤ index then { cb with currentIndex := index } else cb

/-- Translation of EnumComboBox.__init__: store the enum class, then
populate the model from it via set_enum_class. -/
def mkEnumComboBox {D : Type} (enumMembers : List D) : EnumComboBox D :=
  EnumComboBox.set_enum_class
    { enumClassMembers := enumMembers, items := [], currentIndex := -1 }
    enumMembers

/-! ## SpinBoxProperties (properties.py)

attrs runs the field validators at the end of the generated __init__, in
field declaration order, after every field has been assigned (and after
the int converters have run), so the cross-field checks below see the
final field values.  Construction is modelled on the three constrained
fields; the remaining fields always take their defaults in the claims
considered here. -/

structure SpinBoxProperties where
  styleSheet : Option String
  minimum : Int
  maximum : Int
  singleStep : Int
  prefixText : Option String
  suffixText : Option String
  hasFrame : Bool
  deriving DecidableEq, Repr

/-- Translation of properties._check_lower_bound (validator of minimum):
raise ValueError when value >= inst.maximum. -/
def _check_lower_bound (maximum value : Int) : Except String Unit :=
  if maximum ≤ value then .error "Min must be less than max." else .ok ()

/-- Translation of properties._check_upper_bound (validator of maximum):
raise ValueError when value <= inst.minimum. -/
def _check_upper_bound (minimum value : Int) : Except String Unit :=
  if value ≤ minimum then .error "Max must be greater than min." else .ok ()

/-- Translation of properties._check_step_size (validator of singleStep):
raise ValueError when value <= 0 or value > inst.maximum - inst.minimum. -/
def _check_step_size (minimum maximum value : Int) : Except String Unit :=
  let max_step := maximum - minimum
  if value ≤ 0 || max_step < value then
    .error "Step must be higher than 0 and less than the allowed maximum."
  else .ok ()

/-- Translation of SpinBoxProperties(minimum=..., maximum=...,
singleStep=...): assign all fields, then run the validators in field
order. -/
def mkSpinBoxProperties (minimum maximum singleStep : Int) :
    Except String SpinBoxProperties := do
  let inst : SpinBoxProperties :=
    { styleSheet := some "", minimum := minimum, maximum := maximum,
      singleStep := singleStep, prefixText := none, suffixText := none,
      hasFrame := false }
  _check_lower_bound inst.maximum inst.minimum
  _check_upper_bound inst.minimum inst.maximum
  _check_step_size inst.minimum inst.maximum inst.singleStep
  pure inst

/-! ## Snapshots and update_value (config.py) -/

/-- Translation of attrs.asdict on a config instance: one entry per attrs
field, in field order, holding the current attribute value. -/
def attrsAsdict (inst : RegInst) : List (String × Value) :=
  inst.cls.fields.map fun f => (f.name, getattr inst.vals f.name)

/-- Translation of config.save: to_qsettings for every registered
instance, in registry order. -/
def saveCfg (reg : Registry) (st : QSettingsState) : Registry × QSettingsState :=
  (reg, reg.foldl (fun acc p => toQsettingsCfg p.2.cls p.2.vals acc) st)

/-- Translation of config.update_value: when the group is unregistered,
log and return; otherwise set the attribute when it exists (logging when
it does not) and call save().  The setattr goes through the on_setattr
hook config.update_qsettings. -/
def update_value (reg : Registry) (st : QSettingsState) (group key : String)
    (value : Value) : Registry × QSettingsState :=
  match alget? reg group with
  | none => (reg, st)
  | some inst =>
      if (alget? inst.vals key).isSome then
        let r := update_qsettings_cfg inst.cls key value st
        let inst2 : RegInst := { inst with vals := alset inst.vals key r.1 }
        let reg2 := alset reg group inst2
        saveCfg reg2 r.2
      else
        saveCfg reg st

/-- Translation of config.create_snapshot: registered name to
attrs.asdict of the instance, in registry order. -/
def createSnapshot (reg : Registry) : List (String × List (String × Value)) :=
  reg.map fun p => (p.1, attrsAsdict p.2)

/-- Translation of config.restore_snapshot: update_value for every
key of every group of the snapshot, in snapshot order. -/
def restoreSnapshot (snapshot : List (String × List (String × Value)))
    (reg : Registry) (st : QSettingsState) : Registry × QSettingsState :=
  snapshot.foldl
    (fun acc grp =>
      grp.2.foldl (fun acc2 kv => update_value acc2.1 acc2.2 grp.1 kv.1 kv.2) acc)
    (reg, st)

/-! ## Lookup characterizations of the from_qsettings variants -/

theorem fromQsettingsBase_alget? (cls : ConfigClass) (st : QSettingsState) (f : Field)
    (hmem : f ∈ cls.fields) (hnd : (cls.fields.map Field.name).Nodup) :
    alget? (fromQsettingsBase cls st) f.name
      = some (match (match st.value? (getSettingPath cls.className f.name) with
              | some v => FieldDefault.value v
              | none => f.default) with
          | .factory h => h ()
          | .value v => v) := by
  have h := alget?_map_fields cls.fields
      (fun g => match (match st.value? (getSettingPath cls.className g.name) with
          | some v => FieldDefault.value v
          | none => g.default) with
        | .factory h2 => h2 ()
        | .value v => v) f hmem hnd
  exact h

theorem fromQsettingsGrp_alget? (cls : ConfigClass) (st : QSettingsState) (f : Field)
    (hmem : f ∈ cls.fields) (hnd : (cls.fields.map Field.name).Nodup) :
    alget? (fromQsettingsGrp cls st) f.name
      = some ((st.value? (settingPathOf cls f.name)).getD (getFieldDefault f)) := by
  have h := alget?_map_fields cls.fields
      (fun g => (st.value? (settingPathOf cls g.name)).getD (getFieldDefault g)) f hmem hnd
  exact h

theorem fromQsettingsCfg_alget? (cls : ConfigClass) (st : QSettingsState) (f : Field)
    (hmem : f ∈ cls.fields) (hnd : (cls.fields.map Field.name).Nodup) :
    alget? (fromQsettingsCfg cls st) f.name
      = some ((st.value? (getSettingPath cls.className f.name)).getD (getFieldDefault f)) := by
  have h := alget?_map_fields cls.fields
      (fun g => (st.value? (getSettingPath cls.className g.name)).getD (getFieldDefault g)) f hmem hnd
  exact h

/-! ## Claims C1, C2, C10 -/

/-- Claim C1, amended: assigning a value to a declared field of a
registered config instance writes the value through to the settings store
under the key group/field, syncs the store, and leaves the attribute
holding the assigned value - except that base.update_qsettings writes a
QColor value in serialized form, as its name() string, rather than the
assigned QColor object itself; _pyside_config._update_qsettings writes
every value unchanged. -/
theorem claimC1 (cls : ConfigClass) (vals : ConfigVals) (f : Field) (v : Value)
    (st : QSettingsState) :
    (setattrBase cls vals f v st).2.value? (getSettingPath cls.className f.name)
        = some (storedForm v)
    ∧ (setattrBase cls vals f v st).2.synced = true
    ∧ alget? (setattrBase cls vals f v st).1 f.name = some v
    ∧ (setattrGrp cls vals f v st).2.value? (settingPathOf cls f.name) = some v
    ∧ (setattrGrp cls vals f v st).2.synced = true
    ∧ alget? (setattrGrp cls vals f v st).1 f.name = some v := by
  have hb := getSettingPath_ne_empty cls.className f.name
  have hg := settingPathOf_ne_empty cls f.name
  refine ⟨?_, ?_, ?_, ?_, ?_, ?_⟩ <;>
    cases v <;>
      simp [setattrBase, setattrGrp, update_qsettings_base, update_qsettings_grp,
        storedForm, QSettingsState.value?, QSettingsState.setValue, QSettingsState.sync,
        alget?_alset_self, hb, hg]

/-- Claim C1 counterexample: assigning the QColor named "#ff0000" to a
declared field stores the string "#ff0000" in the settings store, which
is not the assigned QColor value, refuting the claim that the assigned
value itself is written for every attribute mutation. -/
theorem claimC1_counterexample :
    (setattrBase { className := "Example",
                   fields := [{ name := "color", default := .value (.vstr "#000000") }] }
        [("color", Value.vstr "#000000")]
        { name := "color", default := .value (.vstr "#000000") }
        (Value.vcolor "#ff0000") { store := [], synced := true }).2.value? "Example/color"
      = some (Value.vstr "#ff0000")
    ∧ Value.vstr "#ff0000" ≠ Value.vcolor "#ff0000" := by
  constructor
  · decide
  · decide

/-- Claim C2: from_qsettings returns an instance in which a field whose
key is absent from the settings store holds the declared default (with a
Factory default invoked to produce the value) and a field whose key is
present holds the stored value; this holds in all three source variants
of from_qsettings. -/
theorem claimC2 (cls : ConfigClass) (st : QSettingsState) (f : Field)
    (hmem : f ∈ cls.fields) (hnd : (cls.fields.map Field.name).Nodup) :
    (st.value? (getSettingPath cls.className f.name) = none →
        alget? (fromQsettingsBase cls st) f.name = some (getFieldDefault f)
        ∧ alget? (fromQsettingsCfg cls st) f.name = some (getFieldDefault f))
    ∧ (st.value? (settingPathOf cls f.name) = none →
        alget? (fromQsettingsGrp cls st) f.name = some (getFieldDefault f))
    ∧ (∀ v, st.value? (getSettingPath cls.className f.name) = some v →
        alget? (fromQsettingsBase cls st) f.name = some v
        ∧ alget? (fromQsettingsCfg cls st) f.name = some v)
    ∧ (∀ v, st.value? (settingPathOf cls f.name) = some v →
        alget? (fromQsettingsGrp cls st) f.name = some v) := by
  have hbase := fromQsettingsBase_alget? cls st f hmem hnd
  have hgrp := fromQsettingsGrp_alget? cls st f hmem hnd
  have hcfg := fromQsettingsCfg_alget? cls st f hmem hnd
  refine ⟨fun hnone => ?_, fun hnone => ?_, fun v hsome => ?_, fun v hsome => ?_⟩
  · rw [hnone] at hbase hcfg
    exact ⟨hbase, hcfg⟩
  · rw [hnone] at hgrp
    exact hgrp
  · rw [hsome] at hbase hcfg
    exact ⟨hbase, hcfg⟩
  · rw [hsome] at hgrp
    exact hgrp

/-- Config class with a factory default on alpha and a plain default on
beta, used by the C2 witness. -/
def demoFactoryClass : ConfigClass :=
  { className := "Demo2",
    fields := [⟨"alpha", .factory (fun _ => Value.vint 3)⟩,
               ⟨"beta", .value (Value.vint 0)⟩] }

/-- Settings store holding only the beta key of demoFactoryClass. -/
def betaStore : QSettingsState :=
  { store := [("Demo2/beta", Value.vint 7)], synced := true }

/-- Claim C2 witness: a two-field class against a store holding only the
second field: the absent alpha key falls back to the invoked factory
default 3, the present beta key takes the stored value 7. -/
theorem claimC2_witness :
    betaStore.value? (getSettingPath "Demo2" "alpha") = none
    ∧ alget? (fromQsettingsBase demoFactoryClass betaStore) "alpha" = some (Value.vint 3)
    ∧ alget? (fromQsettingsCfg demoFactoryClass betaStore) "alpha" = some (Value.vint 3)
    ∧ betaStore.value? (getSettingPath "Demo2" "beta") = some (Value.vint 7)
    ∧ alget? (fromQsettingsBase demoFactoryClass betaStore) "beta" = some (Value.vint 7) := by
  have hnone : betaStore.value? (getSettingPath "Demo2" "alpha") = none := by decide
  have hsome : betaStore.value? (getSettingPath "Demo2" "beta") = some (Value.vint 7) := by
    decide
  have ha := (claimC2 demoFactoryClass betaStore
      ⟨"alpha", .factory (fun _ => Value.vint 3)⟩
      (List.Mem.head _) (by simp [demoFactoryClass])).1 hnone
  have hb := ((claimC2 demoFactoryClass betaStore
      ⟨"beta", .value (Value.vint 0)⟩
      (List.mem_cons_of_mem _ (List.Mem.head _))
      (by simp [demoFactoryClass])).2.2.1 (Value.vint 7)) hsome
  exact ⟨hnone, ha.1, ha.2, hsome, hb.1⟩

/-- Claim C10: SpinBoxProperties construction succeeds exactly when
minimum < maximum and 0 < singleStep <= maximum - minimum, holding
exactly the given bounds and step, and raises ValueError otherwise. -/
theorem claimC10 (m M s : Int) :
    ((m < M ∧ 0 < s ∧ s ≤ M - m) →
        mkSpinBoxProperties m M s
          = .ok { styleSheet := some "", minimum := m, maximum := M, singleStep := s,
                  prefixText := none, suffixText := none, hasFrame := false })
    ∧ (¬(m < M ∧ 0 < s ∧ s ≤ M - m) →
        ∀ props, mkSpinBoxProperties m M s ≠ .ok props) := by
  constructor
  · rintro ⟨h1, h2, h3⟩
    have e1 : ¬ (M ≤ m) := not_le.mpr h1
    have e2 : (decide (s ≤ 0) || decide (M - m < s)) = false := by
      simp only [Bool.or_eq_false_iff, decide_eq_false_iff_not]
      exact ⟨by omega, by omega⟩
    simp [mkSpinBoxProperties, _check_lower_bound, _check_upper_bound, _check_step_size,
      e1, e2, Bind.bind, Except.bind, Functor.map, Except.map, pure, Except.pure]
  · intro hnot props
    by_cases c1 : M ≤ m
    · simp [mkSpinBoxProperties, _check_lower_bound, c1, Bind.bind, Except.bind,
        Functor.map, Except.map]
    · by_cases c2 : (decide (s ≤ 0) || decide (M - m < s)) = true
      · simp [mkSpinBoxProperties, _check_lower_bound, _check_upper_bound,
          _check_step_size, c1, c2, Bind.bind, Except.bind, Functor.map, Except.map]
      · have hc : ¬ s ≤ 0 ∧ ¬ M - m < s := by
          simpa [not_or] using c2
        exact absurd ⟨not_le.mp c1, not_le.mp hc.1, not_lt.mp hc.2⟩ hnot

/-- Claim C10 witness: minimum 0, maximum 10, singleStep 2 satisfies the
constraints and construction succeeds with exactly those field values. -/
theorem claimC10_witness :
    mkSpinBoxProperties 0 10 2
      = .ok { styleSheet := some "", minimum := 0, maximum := 10, singleStep := 2,
              prefixText := none, suffixText := none, hasFrame := false } :=
  (claimC10 0 10 2).1 (by decide)

/-! ## Concrete fixtures used by witnesses and counterexamples -/

/-- Example config class Demo with a single int field x defaulting to 5. -/
def demoClass : ConfigClass :=
  { className := "Demo", fields := [⟨"x", .value (.vint 5)⟩] }

/-- Example config class Demo declared with group_name "Grp". -/
def demoGrpClass : ConfigClass :=
  { className := "Demo", groupName := some "Grp", fields := [⟨"x", .value (.vint 5)⟩] }

/-- Field x of the demo classes. -/
def demoField : Field := ⟨"x", .value (.vint 5)⟩

/-- An empty, synced settings store. -/
def emptyStore : QSettingsState := { store := [], synced := true }

/-- A registered instance of demoClass holding x = 5. -/
def demoInst : RegInst := ⟨demoClass, [("x", Value.vint 5)]⟩

/-! ## Claims C3, C4, C5 -/

/-- Claim C3, amended: duplicate registration is rejected by the
module-level registration functions: _pyside_config._register raises
ValueError and config.register logs an error, both leaving the registry
and the store unchanged unless the overwrite flag is set, in which case
the registration is replaced; registry.ConfigRegistry.register, however,
performs no duplicate check and silently replaces the existing
registration. -/
theorem claimC3 (reg : Registry) (st : QSettingsState) (cls : ConfigClass)
    (name? : Option String)
    (hdupG : (alget? reg (configGroupOf cls)).isSome = true)
    (hdupN : (alget? reg (resolveRegName name? cls)).isSome = true) :
    (∀ out, registerGrp reg st cls false ≠ .ok out)
    ∧ registerCfg reg st cls name? false = (reg, st, true)
    ∧ registerCfg reg st cls name? true
        = (alset reg (resolveRegName name? cls) ⟨cls, fromQsettingsCfg cls st⟩, st, false)
    ∧ alget? (registerRegistry reg st cls name?).1 (resolveRegName name? cls)
        = some ⟨cls, fromQsettingsBase cls st⟩ := by
  obtain ⟨xg, hxg⟩ := Option.isSome_iff_exists.mp hdupG
  obtain ⟨xn, hxn⟩ := Option.isSome_iff_exists.mp hdupN
  refine ⟨?_, ?_, ?_, ?_⟩
  · intro out
    simp [registerGrp, hxg]
  · simp [registerCfg, hxn]
  · simp [registerCfg, hxn]
  · exact alget?_alset_self reg (resolveRegName name? cls) ⟨cls, fromQsettingsBase cls st⟩

/-- Claim C3 witness: registering a class whose group name is already
taken, with overwrite not set, is refused by _register and register. -/
theorem claimC3_witness :
    ((alget? [("Demo", demoInst)] (configGroupOf demoClass)).isSome = true)
    ∧ registerCfg [("Demo", demoInst)] emptyStore demoClass none false
      = ([("Demo", demoInst)], emptyStore, true) := by
  refine ⟨by decide, ?_⟩
  exact (claimC3 [("Demo", demoInst)] emptyStore demoClass none
      (by decide) (by decide)).2.1

/-- Claim C3 counterexample: a second ConfigRegistry.register call under
an already registered name silently replaces the existing registration
(the stored instance changes from x = 5 to x = 7) even though no
overwrite flag exists, refuting the claim for this registry. -/
theorem claimC3_counterexample :
    ((alget? (registerRegistry [("Demo", demoInst)]
        { store := [("Demo/x", Value.vint 7)], synced := true }
        demoClass none).1 "Demo").map RegInst.vals = some [("x", Value.vint 7)])
    ∧ (some [("x", Value.vint 7)] : Option (List (String × Value)))
        ≠ some [("x", Value.vint 5)]
    ∧ (alget? [("Demo", demoInst)] "Demo").map RegInst.vals
        = some [("x", Value.vint 5)] := by
  refine ⟨by decide, by decide, by decide⟩

/-- Claim C4, amended: the settings key of every field is the group,
followed by "/", followed by the field name, where the group is the class
name unless a NON-EMPTY group_name was supplied to the decorator (an
explicitly supplied empty group_name falls back to the class name through
Python or-truthiness); the read in from_qsettings, the write in
to_qsettings and the on_setattr write-through all use this same key. -/
theorem claimC4 (cn gs : String) (fs : List Field) (c : ConfigClass)
    (st : QSettingsState) (vals : ConfigVals) (f : Field) (v : Value)
    (hgs : gs ≠ "") (hmem : f ∈ c.fields) (hnd : (c.fields.map Field.name).Nodup) :
    configGroupOf { className := cn, groupName := none, fields := fs } = cn
    ∧ configGroupOf { className := cn, groupName := some gs, fields := fs } = gs
    ∧ settingPathOf c f.name = configGroupOf c ++ "/" ++ f.name
    ∧ alget? (fromQsettingsGrp c st) f.name
        = some ((st.value? (settingPathOf c f.name)).getD (getFieldDefault f))
    ∧ (toQsettingsGrp c vals st).value? (settingPathOf c f.name)
        = some (getattr vals f.name)
    ∧ (update_qsettings_grp c f v st).2.value? (settingPathOf c f.name) = some v := by
  have hpaths : (c.fields.map fun g => settingPathOf c g.name).Nodup := by
    have h2 := hnd.map (f := fun n => settingPathOf c n)
      (fun a b h => settingPathOf_inj c a b h)
    simpa [List.map_map, Function.comp] using h2
  refine ⟨rfl, by simp [configGroupOf, hgs], rfl,
    fromQsettingsGrp_alget? c st f hmem hnd,
    toQsettingsAux_value? (settingPathOf c) c.fields vals st f hmem hpaths, ?_⟩
  have hg := settingPathOf_ne_empty c f.name
  simp [update_qsettings_grp, QSettingsState.value?, QSettingsState.setValue,
    QSettingsState.sync, alget?_alset_self, hg]

/-- Claim C4 witness: a class decorated with group_name "Grp": the group
is "Grp", the key of field x is Grp/x, and read, write and write-through
all use it. -/
theorem claimC4_witness :
    ("Grp" : String) ≠ ""
    ∧ (update_qsettings_grp demoGrpClass demoField (Value.vint 9)
        emptyStore).2.value? (settingPathOf demoGrpClass "x")
      = some (Value.vint 9) := by
  refine ⟨by decide, ?_⟩
  exact (claimC4 "Demo" "Grp" [] demoGrpClass emptyStore
      [("x", Value.vint 5)] demoField (Value.vint 9)
      (by decide) (List.Mem.head _) (by simp [demoGrpClass])).2.2.2.2.2

/-- Claim C4 counterexample: supplying the explicit (empty) group_name ""
to the decorator yields the class name "Foo" as group instead of the
supplied group_name, refuting the claim that the class name is used only
when no explicit group_name was supplied. -/
theorem claimC4_counterexample :
    configGroupOf { className := "Foo", groupName := some "", fields := [] } = "Foo"
    ∧ ("Foo" : String) ≠ "" := by
  constructor <;> decide

/-- Claim C5, amended: registry.ConfigRegistry.register and (on a free
name) _pyside_config._register construct the instance from the settings
store, persist every field of it back to the store, and leave the
registry mapping the name to that instance; config.register constructs
and registers the instance but performs no write-back, so absent keys
stay absent (see the counterexample). -/
theorem claimC5 (reg : Registry) (st : QSettingsState) (cls : ConfigClass)
    (name? : Option String) (f : Field)
    (hmem : f ∈ cls.fields) (hnd : (cls.fields.map Field.name).Nodup)
    (hfree : (alget? reg (configGroupOf cls)).isNone = true) :
    ((registerRegistry reg st cls name?).2.value? (getSettingPath cls.className f.name)
        = some (getattr (fromQsettingsBase cls st) f.name)
    ∧ alget? (registerRegistry reg st cls name?).1 (resolveRegName name? cls)
        = some ⟨cls, fromQsettingsBase cls st⟩)
    ∧ (∃ reg2 st2, registerGrp reg st cls false = .ok (reg2, st2)
        ∧ st2.value? (settingPathOf cls f.name)
            = some (getattr (fromQsettingsGrp cls st) f.name)
        ∧ alget? reg2 (configGroupOf cls) = some ⟨cls, fromQsettingsGrp cls st⟩) := by
  have hpathsB : (cls.fields.map fun g => getSettingPath cls.className g.name).Nodup := by
    have h2 := hnd.map (f := fun n => getSettingPath cls.className n)
      (fun a b h => getSettingPath_inj cls.className a b h)
    simpa [List.map_map, Function.comp] using h2
  have hpathsG : (cls.fields.map fun g => settingPathOf cls g.name).Nodup := by
    have h2 := hnd.map (f := fun n => settingPathOf cls n)
      (fun a b h => settingPathOf_inj cls a b h)
    simpa [List.map_map, Function.comp] using h2
  refine ⟨⟨?_, ?_⟩, ?_⟩
  · exact toQsettingsAux_value? (getSettingPath cls.className) cls.fields
      (fromQsettingsBase cls st) st f hmem hpathsB
  · exact alget?_alset_self reg (resolveRegName name? cls) ⟨cls, fromQsettingsBase cls st⟩
  · refine ⟨alset reg (configGroupOf cls) ⟨cls, fromQsettingsGrp cls st⟩,
      toQsettingsGrp cls (fromQsettingsGrp cls st) st, ?_, ?_, ?_⟩
    · simp [registerGrp, Option.isNone_iff_eq_none.mp hfree]
    · exact toQsettingsAux_value? (settingPathOf cls) cls.fields
        (fromQsettingsGrp cls st) st f hmem hpathsG
    · exact alget?_alset_self reg (configGroupOf cls) ⟨cls, fromQsettingsGrp cls st⟩

/-- Claim C5 witness: registering a one-field class against an empty
store persists the default value of the field and maps the name to the
constructed instance. -/
theorem claimC5_witness :
    ((alget? ([] : Registry) (configGroupOf demoClass)).isNone = true)
    ∧ (registerRegistry [] emptyStore demoClass none).2.value?
        (getSettingPath "Demo" "x")
      = some (getattr (fromQsettingsBase demoClass emptyStore) "x") := by
  refine ⟨by decide, ?_⟩
  exact (claimC5 [] emptyStore demoClass none demoField
      (List.Mem.head _) (by simp [demoClass]) (by decide)).1.1

/-- Claim C5 counterexample: config.register on an empty store registers
the class (the name becomes present in the registry) but writes nothing
back to the store, so the key Demo/x is still absent after registration,
refuting the claim that registration persists every field. -/
theorem claimC5_counterexample :
    ((registerCfg [] emptyStore demoClass none false).2.1.value? "Demo/x" = none)
    ∧ ((alget? (registerCfg [] emptyStore demoClass none false).1 "Demo").isSome
        = true) := by
  constructor <;> decide

/-! ## Claims C6, C7, C9 -/

theorem callRepeatedly_singleton_cached (freshes : List Nat) (i : Nat) :
    callRepeatedly singletonCall (some i) freshes = freshes.map fun _ => i := by
  induction freshes with
  | nil => rfl
  | cons hd tl ih => simp [callRepeatedly, singletonCall, ih]

/-- Claim C6: the registry/manager construction is a process-wide
singleton: starting from the empty cache, any sequence of constructor
calls returns the very instance created by the first call, every time,
both for the singleton decorator wrapper (registry.py and
config_manager.py) and for ConfigManager.__new__; the two caching
mechanisms behave identically. -/
theorem claimC6 (fresh : Nat) (rest : List Nat) :
    callRepeatedly singletonCall none (fresh :: rest)
        = (fresh :: rest).map (fun _ => fresh)
    ∧ callRepeatedly configManagerNew none (fresh :: rest)
        = (fresh :: rest).map (fun _ => fresh)
    ∧ (∀ cache f, configManagerNew cache f = singletonCall cache f) := by
  have h : ∀ freshes i, callRepeatedly configManagerNew (some i) freshes
      = freshes.map fun _ => i := by
    intro freshes i
    induction freshes with
    | nil => rfl
    | cons hd tl ih => simp [callRepeatedly, configManagerNew, ih]
  refine ⟨?_, ?_, fun cache f => rfl⟩
  · simp [callRepeatedly, singletonCall, callRepeatedly_singleton_cached]
  · simp [callRepeatedly, configManagerNew, h]

/-- Claim C7, amended: ConfigManagerBase.__init__ creates a mutex, but no
registry mutation method acquires it: register_config, register_configs
and unregister_config each mutate the _configs registry with no lock or
unlock event in their traces, so registry mutation is not performed while
holding the mutex. -/
theorem claimC7 (name groupName : String) (withConfigs : Bool) :
    (MgrEvent.lockMutex ∉ registerConfigTrace groupName
      ∧ mutationsGuarded (registerConfigTrace groupName) 0 = false)
    ∧ (MgrEvent.lockMutex ∉ registerConfigsTrace
      ∧ mutationsGuarded registerConfigsTrace 0 = false)
    ∧ (MgrEvent.lockMutex ∉ unregisterConfigTrace name
      ∧ mutationsGuarded (unregisterConfigTrace name) 0 = false)
    ∧ MgrEvent.createMutex ∈ managerInitTrace withConfigs := by
  refine ⟨⟨by simp [registerConfigTrace], rfl⟩,
    ⟨by decide, rfl⟩,
    ⟨by simp [unregisterConfigTrace], rfl⟩, ?_⟩
  cases withConfigs <;> simp [managerInitTrace]

/-- Claim C7 counterexample: the trace of register_config contains a
registry mutation that happens at lock depth zero, refuting the claim
that every registry mutation is performed while holding the mutex. -/
theorem claimC7_counterexample :
    mutationsGuarded (registerConfigTrace "Demo") 0 = false
    ∧ MgrEvent.registryMutation "Demo" ∈ registerConfigTrace "Demo" := by
  constructor <;> decide

theorem findDataList_of_mem {D : Type} [DecidableEq D] (items : List D) (v : D)
    (h : v ∈ items) :
    0 ≤ findDataList items v
    ∧ items[(findDataList items v).toNat]? = some v := by
  induction items with
  | nil => simp at h
  | cons hd tl ih =>
      by_cases he : hd = v
      · subst he
        simp [findDataList]
      · have hmem : v ∈ tl := by
          rcases List.mem_cons.mp h with h2 | h2
          · exact absurd h2.symm he
          · exact h2
        obtain ⟨h1, h2⟩ := ih hmem
        have hnat : (findDataList tl v + 1).toNat = (findDataList tl v).toNat + 1 := by
          omega
        refine ⟨?_, ?_⟩
        · simp only [findDataList, if_neg he, if_pos h1]
          omega
        · simp only [findDataList, if_neg he, if_pos h1, hnat,
            List.getElem?_cons_succ]
          exact h2

/-- Claim C9, amended: for a combo box whose configured enum class is the
class its items were populated from (as right after construction),
set_current_enum of any member followed by current_enum returns that
member; and current_enum returns None whenever the current item data is
not a member of the configured class, in particular when the box was
later repopulated from a different enum class, since set_enum_class does
not update the configured class. -/
theorem claimC9 {D : Type} [DecidableEq D] (E : List D) (m : D) (cb : EnumComboBox D)
    (hm : m ∈ E) :
    (EnumComboBox.current_enum (EnumComboBox.set_current_enum (mkEnumComboBox E) m)
        = some m)
    ∧ (∀ d, cb.currentData = some d → d ∉ cb.enumClassMembers → cb.current_enum = none)
    ∧ (cb.currentData = none → cb.current_enum = none) := by
  refine ⟨?_, ?_, ?_⟩
  · obtain ⟨h1, h2⟩ := findDataList_of_mem E m hm
    have hbox : EnumComboBox.set_current_enum (mkEnumComboBox E) m
        = { enumClassMembers := E, items := E, currentIndex := findDataList E m } := by
      simp [EnumComboBox.set_current_enum, EnumComboBox.findData, mkEnumComboBox,
        EnumComboBox.set_enum_class, h1]
    rw [hbox]
    simp [EnumComboBox.current_enum, EnumComboBox.currentData, h1, h2, hm]
  · intro d hd hnot
    simp [EnumComboBox.current_enum, hd, hnot]
  · intro hd
    simp [EnumComboBox.current_enum, hd]

/-- Claim C9 witness: a combo box built for the two-member class
containing 10 and 20: selecting 20 and reading back yields 20. -/
theorem claimC9_witness :
    (20 : Nat) ∈ [10, 20]
    ∧ EnumComboBox.current_enum
        (EnumComboBox.set_current_enum (mkEnumComboBox [(10 : Nat), 20]) 20)
      = some 20 :=
  ⟨by decide, (claimC9 [10, 20] 20 (mkEnumComboBox [(10 : Nat), 20]) (by decide)).1⟩

/-- Claim C9 counterexample: a box constructed for the enum class with
single member 0 and then repopulated via set_enum_class from the class
with single member 1: selecting the member 1 of the populating class and
reading it back yields none rather than some 1, because set_enum_class
left the configured class unchanged. -/
theorem claimC9_counterexample :
    EnumComboBox.current_enum
      (EnumComboBox.set_current_enum
        (EnumComboBox.set_enum_class (mkEnumComboBox [(0 : Nat)]) [1]) 1) = none
    ∧ (1 : Nat) ∈ [(1 : Nat)] := by
  constructor <;> decide

/-! ## Claim C8: snapshot round trip -/

theorem update_qsettings_cfg_fst (cls : ConfigClass) (a : String) (v : Value)
    (st : QSettingsState) : (update_qsettings_cfg cls a v st).1 = v := by
  simp only [update_qsettings_cfg]
  split <;> rfl

theorem update_value_self (reg : Registry) (st : QSettingsState) (group key : String)
    (inst : RegInst) (hground : alget? reg group = some inst)
    (hkey : (alget? inst.vals key).isSome = true) :
    (update_value reg st group key (getattr inst.vals key)).1 = reg := by
  obtain ⟨v, hv⟩ := Option.isSome_iff_exists.mp hkey
  have hget : getattr inst.vals key = v := by simp [getattr, hv]
  have hset : alset inst.vals key (getattr inst.vals key) = inst.vals := by
    rw [hget]
    exact alset_of_alget? inst.vals key v hv
  unfold update_value
  rw [hground]
  simp only [hkey, if_true, saveCfg]
  rw [update_qsettings_cfg_fst, hset]
  exact alset_of_alget? reg group inst hground

theorem foldl_fixed {α β : Type} (P : α → Prop) (f : α → β → α) (l : List β)
    (init : α) (h0 : P init) (hstep : ∀ a b, b ∈ l → P a → P (f a b)) :
    P (l.foldl f init) := by
  induction l generalizing init with
  | nil => exact h0
  | cons hd tl ih =>
      exact ih (f init hd) (hstep init hd (List.mem_cons_self hd tl) h0)
        (fun a b hb => hstep a b (List.mem_cons_of_mem hd hb))

/-- Claim C8: restore_snapshot applied to the dictionary produced by
create_snapshot is the identity on the in-memory state of the registered
config instances: every field of every registered instance ends up equal
to its value at snapshot time. -/
theorem claimC8 (reg : Registry) (st : QSettingsState)
    (hnd : (reg.map Prod.fst).Nodup)
    (hwf : ∀ p ∈ reg, p.2.vals.map Prod.fst = p.2.cls.fields.map Field.name) :
    (restoreSnapshot (createSnapshot reg) reg st).1 = reg := by
  unfold restoreSnapshot
  refine foldl_fixed (fun acc => acc.1 = reg) _ (createSnapshot reg) (reg, st) rfl ?_
  intro acc grp hgrp hacc
  obtain ⟨p, hp, hpe⟩ := List.mem_map.mp hgrp
  subst hpe
  refine foldl_fixed (fun acc2 => acc2.1 = reg) _ (attrsAsdict p.2) acc hacc ?_
  intro acc2 kv hkv hacc2
  obtain ⟨f, hf, hfe⟩ := List.mem_map.mp hkv
  subst hfe
  have hground : alget? reg p.1 = some p.2 := alget?_of_mem_nodup reg p.1 p.2 hp hnd
  have hkey : (alget? p.2.vals f.name).isSome = true := by
    apply alget?_isSome_of_mem_keys
    rw [hwf p hp]
    exact List.mem_map.mpr ⟨f, hf, rfl⟩
  rw [hacc2]
  exact update_value_self reg acc2.2 p.1 f.name p.2 hground hkey

/-- Claim C8 witness: a registry holding one Demo instance with x = 5:
restoring the snapshot taken of it leaves the registry state unchanged. -/
theorem claimC8_witness :
    ((([("Demo", demoInst)] : Registry).map Prod.fst).Nodup
      ∧ ∀ p ∈ ([("Demo", demoInst)] : Registry),
          p.2.vals.map Prod.fst = p.2.cls.fields.map Field.name)
    ∧ (restoreSnapshot (createSnapshot [("Demo", demoInst)]) [("Demo", demoInst)]
        emptyStore).1 = [("Demo", demoInst)] :=
  ⟨⟨by decide, by decide⟩,
    claimC8 [("Demo", demoInst)] emptyStore (by decide) (by decide)⟩

end PysideConfig
